import Mathlib

/-!
# easyconn: the websocket connection pumps

A shallow embedding of `src/easyconn/conn.go`.

The two pumps are goroutines that talk to the outside world only through the
transport (`c.WS`), the clock, the ticker and three channels.  Each pump is
embedded as a total function from the finite sequence of answers the
environment gives it (results of `NextReader`, events resolved by `select`,
results of `WriteMessage`, readings of `time.Now()`) to

* the trace of operations it performs, in program order,
* whether it has returned (`exited`), or is blocked waiting for the next answer,
* the answers it never consumed (`pending`).

Channel sends are recorded as effects; the receiver is assumed to take them.
-/

namespace Easyconn

/-! ## Time and the constants of `conn.go` -/

/-- Go `time.Duration`: a signed count of nanoseconds. -/
abbrev Duration := Int

/-- An instant, as nanoseconds since a fixed epoch; `t.Add(d)` is `t + d`. -/
abbrev Time := Int

/-- Go `time.Second`, in nanoseconds. -/
def Second : Duration := 1000000000

/-- Time allowed to write a message to the peer. -/
def writeWait : Duration := 10 * Second

/-- Time allowed to read the next pong message from the peer. -/
def pongWait : Duration := 60 * Second

/-- Send pings to peer with this period. Must be less than pongWait.
Go divides integers by truncation. -/
def pingPeriod : Duration := Int.tdiv (pongWait * 9) 10

/-- The value an `int64` holds after a computation whose exact result is `x`. -/
def wrapInt64 (x : Int) : Int := (x + 2 ^ 63) % 2 ^ 64 - 2 ^ 63

/-! ## Data model -/

/-- A byte slice. -/
abbrev Bytes := List UInt8

/-- Modelled from the spec: the message type tags of the repository's `websocket`
package (`websocket.TextMessage`, `websocket.PingMessage`, ...), whose source is
not part of `src/`.  The spec lists the frame types text, heartbeat-probe (ping),
heartbeat-response (pong) and close; binary is the remaining data frame type. -/
inductive MessageType where
  | TextMessage
  | BinaryMessage
  | CloseMessage
  | PingMessage
  | PongMessage
  deriving DecidableEq, Repr

/-- Identity of a `*websocket.Conn`. -/
abbrev WSConn := Nat

/-- A channel of byte slices: its identity and its buffer capacity. -/
structure Chan where
  id : Nat
  cap : Nat
  deriving DecidableEq, Repr

/-- The `Connection` struct: the websocket connection and the buffered channel
of outbound messages. -/
structure Connection where
  WS : WSConn
  Send : Chan
  deriving DecidableEq, Repr

/-- The `ConnMessage` struct. -/
structure ConnMessage where
  Connection : Connection
  Message : Bytes
  deriving DecidableEq, Repr

/-- Operations a pump performs on its environment. -/
inductive Effect where
  /-- `ws.SetReadLimit(limit)` -/
  | SetReadLimit (ws : WSConn) (limit : Int)
  /-- `ws.SetReadDeadline(t)` -/
  | SetReadDeadline (ws : WSConn) (t : Time)
  /-- `ws.SetWriteDeadline(t)` -/
  | SetWriteDeadline (ws : WSConn) (t : Time)
  /-- `ws.WriteMessage(mt, payload)` -/
  | WriteMessage (ws : WSConn) (mt : MessageType) (payload : Bytes)
  /-- `ws.Close()` -/
  | Close (ws : WSConn)
  /-- `onClose <- c` -/
  | OnClose (c : Connection)
  /-- `onMessage <- m` -/
  | OnMessage (m : ConnMessage)
  /-- `time.NewTicker(d)` -/
  | NewTicker (d : Duration)
  /-- `ticker.Stop()` -/
  | TickerStop
  deriving DecidableEq, Repr

/-- What a pump has done after being fed a finite sequence of answers. -/
structure Outcome (ι : Type) where
  /-- Operations performed, in program order. -/
  trace : List Effect
  /-- The function has returned (and run its deferred calls). -/
  exited : Bool
  /-- Answers that were never consumed. -/
  pending : List ι
  deriving DecidableEq, Repr

/-! ## readPump -/

/-- Kinds of error `NextReader` can return; the pump does not tell them apart. -/
inductive ReadError where
  | deadlineExceeded
  | closed
  | other
  deriving DecidableEq, Repr

/-- A successful `NextReader`: the message type, what `ioutil.ReadAll(r)` gives
on the returned reader (`none` when it fails), and the clock reading while the
frame is handled. -/
structure Frame where
  mt : MessageType
  body : Option Bytes
  now : Time
  deriving DecidableEq, Repr

/-- One answer of `c.WS.NextReader()`. -/
inductive ReadResult where
  | err (e : ReadError)
  | ok (f : Frame)
  deriving DecidableEq, Repr

/-- The `for` loop of `readPump`.  `exited` here means the loop was left by
`break`; with no answer left the pump is blocked in `NextReader`. -/
def readLoop (c : Connection) : List ReadResult → Outcome ReadResult
  | [] => ⟨[], false, []⟩
  | .err _ :: rest => ⟨[], true, rest⟩
  | .ok f :: rest =>
    let out := readLoop c rest
    match f.mt with
    | .PingMessage =>
      { out with trace := .SetReadDeadline c.WS (f.now + pongWait) :: out.trace }
    | .TextMessage =>
      match f.body with
      | none => out
      | some message => { out with trace := .OnMessage ⟨c, message⟩ :: out.trace }
    | _ => out

/-- The function `readPump`: entry calls, the loop, and the deferred function, which
runs when the loop has been left. `now0` is the clock reading on entry. -/
def readPump (c : Connection) (maxMessageSize : Int) (now0 : Time)
    (reads : List ReadResult) : Outcome ReadResult :=
  let entry := [Effect.SetReadLimit c.WS maxMessageSize,
                Effect.SetReadDeadline c.WS (now0 + pongWait)]
  let out := readLoop c reads
  if out.exited then
    ⟨entry ++ out.trace ++ [.OnClose c, .Close c.WS], true, out.pending⟩
  else
    ⟨entry ++ out.trace, false, out.pending⟩

/-! ## write and writePump -/

/-- The function `write`: the operations it performs; `writeErr` is whether
`WriteMessage` returns an error, which is what `write` returns. -/
def write (c : Connection) (mt : MessageType) (payload : Bytes) (now : Time)
    (writeErr : Bool) : List Effect × Bool :=
  ([.SetWriteDeadline c.WS (now + writeWait), .WriteMessage c.WS mt payload], writeErr)

/-- The case `select` resolves to: a receive on `c.Send` (a message, or `none`
when the channel is closed, i.e. `ok == false`), or a tick. -/
inductive Select where
  | send (message : Option Bytes)
  | tick
  deriving DecidableEq, Repr

/-- One iteration of the `select` loop as seen from outside: the case taken, the
clock reading while it is handled, and whether the write it leads to fails. -/
structure Event where
  sel : Select
  now : Time
  writeErr : Bool
  deriving DecidableEq, Repr

/-- The `for`/`select` loop of `writePump`. `exited` means `return` was reached;
with no event left the pump is blocked in `select`. -/
def writeLoop (c : Connection) : List Event → Outcome Event
  | [] => ⟨[], false, []⟩
  | e :: rest =>
    match e.sel with
    | .send none =>
      ⟨(write c .CloseMessage [] e.now e.writeErr).1, true, rest⟩
    | .send (some message) =>
      let w := write c .TextMessage message e.now e.writeErr
      if w.2 then ⟨w.1, true, rest⟩
      else
        let out := writeLoop c rest
        { out with trace := w.1 ++ out.trace }
    | .tick =>
      let w := write c .PingMessage [] e.now e.writeErr
      if w.2 then ⟨w.1, true, rest⟩
      else
        let out := writeLoop c rest
        { out with trace := w.1 ++ out.trace }

/-- The function `writePump`: the ticker, the loop, and the deferred function. -/
def writePump (c : Connection) (events : List Event) : Outcome Event :=
  let out := writeLoop c events
  if out.exited then
    ⟨.NewTicker pingPeriod :: out.trace ++ [.TickerStop, .Close c.WS], true, out.pending⟩
  else
    ⟨.NewTicker pingPeriod :: out.trace, false, out.pending⟩

/-! ## Upgrade -/

/-- Go `http.Header`: keys with their values. -/
abbrev Header := List (String × List String)

/-- Go `Header.Get`: the first value associated with the key, `""` if there is none. -/
def Header.Get (h : Header) (key : String) : String :=
  match h.lookup key with
  | some (v :: _) => v
  | _ => ""

/-- The fields of `*http.Request` that `Upgrade` reads. -/
structure Request where
  Method : String
  Header : Header
  Host : String

/-- What `websocket.Upgrade` returns when it is called. -/
inductive HandshakeResult where
  | ok (ws : WSConn)
  | handshakeError
  | otherError
  deriving DecidableEq, Repr

/-- Operations `Upgrade` performs. -/
inductive UpEffect where
  /-- `http.Error(w, msg, code)` -/
  | HttpError (msg : String) (code : Nat)
  /-- `websocket.Upgrade(w, r.Header, nil, readBuf, writeBuf)` -/
  | WsUpgrade (readBuf writeBuf : Nat)
  /-- `log.Println(err)` -/
  | LogPrintln
  /-- `go c.writePump()` -/
  | GoWritePump (c : Connection)
  /-- `go c.readPump(onClose, onMessage, maxMessageSize)` -/
  | GoReadPump (c : Connection) (maxMessageSize : Int)
  deriving DecidableEq, Repr

/-- The returned `*Connection` (`none` is nil) and the operations performed. -/
structure UpgradeResult where
  ret : Option Connection
  trace : List UpEffect
  deriving DecidableEq, Repr

/-- The function `Upgrade`. `hs` is what the handshake returns if it is called and
`sendId` the identity of the channel `make` allocates. -/
def Upgrade (r : Request) (hs : HandshakeResult) (sendId : Nat)
    (maxMessageSize : Int) : UpgradeResult :=
  if r.Method ≠ "GET" then
    ⟨none, [.HttpError "Method not allowed" 405]⟩
  else if r.Header.Get "Origin" ≠ "http://" ++ r.Host then
    ⟨none, [.HttpError "Origin not allowed" 403]⟩
  else
    match hs with
    | .handshakeError =>
      ⟨none, [.WsUpgrade 1024 1024, .HttpError "Not a websocket handshake" 400]⟩
    | .otherError =>
      ⟨none, [.WsUpgrade 1024 1024, .LogPrintln]⟩
    | .ok ws =>
      let c : Connection := { Send := ⟨sendId, 256⟩, WS := ws }
      ⟨some c, [.WsUpgrade 1024 1024, .GoWritePump c, .GoReadPump c maxMessageSize]⟩

/-! ## Vocabulary of the properties -/

/-- What handling one successfully read frame adds to the trace of `readLoop`. -/
def frameEffects (c : Connection) (f : Frame) : List Effect :=
  match f.mt with
  | .PingMessage => [.SetReadDeadline c.WS (f.now + pongWait)]
  | .TextMessage =>
    match f.body with
    | none => []
    | some message => [.OnMessage ⟨c, message⟩]
  | _ => []

/-- The values sent on `onMessage`, in order. -/
def onMessages : List Effect → List ConnMessage
  | [] => []
  | .OnMessage m :: rest => m :: onMessages rest
  | _ :: rest => onMessages rest

/-- Stated property: a text frame whose payload was fully read is forwarded as
`ConnMessage{c, payload}`; any other frame is not forwarded. -/
def forwarded (c : Connection) (f : Frame) : Option ConnMessage :=
  if f.mt = .TextMessage then f.body.map (ConnMessage.mk c) else none

/-- Stated property: the two transport operations required for one event of the
outbound pump, a fresh write deadline and then the frame the event calls for. -/
def specWrites (c : Connection) (e : Event) : List Effect :=
  [.SetWriteDeadline c.WS (e.now + writeWait),
   match e.sel with
   | .send (some m) => .WriteMessage c.WS .TextMessage m
   | .send none => .WriteMessage c.WS .CloseMessage []
   | .tick => .WriteMessage c.WS .PingMessage []]

/-- The event is a message or a tick (not the closed-queue signal) and its write
succeeds. -/
def Event.succeeds (e : Event) : Prop :=
  e.sel ≠ .send none ∧ e.writeErr = false

/-- The payloads of the text frames written, in order. -/
def textPayloads : List Effect → List Bytes
  | [] => []
  | .WriteMessage _ .TextMessage p :: rest => p :: textPayloads rest
  | _ :: rest => textPayloads rest

/-- The messages taken from `Send`, in order. -/
def sentMessages : List Event → List Bytes
  | [] => []
  | e :: rest =>
    match e.sel with
    | .send (some m) => m :: sentMessages rest
    | _ => sentMessages rest

/-- Every frame write in the trace comes directly after a `SetWriteDeadline`
on the same transport. -/
def writesGuarded : List Effect → Bool
  | [] => true
  | .SetWriteDeadline ws _ :: .WriteMessage ws1 _ _ :: rest =>
    decide (ws = ws1) && writesGuarded rest
  | .WriteMessage _ _ _ :: _ => false
  | _ :: rest => writesGuarded rest

/-- `SetWriteDeadline` and `WriteMessage` operations. -/
def Effect.isWriteOp : Effect → Bool
  | .SetWriteDeadline _ _ => true
  | .WriteMessage _ _ _ => true
  | _ => false

/-! ## Sample inputs -/

/-- A connection. -/
def conn0 : Connection := { WS := 7, Send := ⟨1, 256⟩ }

/-- A message, a tick, and a second message, all written successfully. -/
def sampleEvents : List Event :=
  [⟨.send (some [104, 105]), 1000, false⟩, ⟨.tick, 2000, false⟩,
   ⟨.send (some [33]), 3000, false⟩]

/-- Two frames read successfully: a text frame and a ping. -/
def sampleFrames : List Frame :=
  [⟨.TextMessage, some [97], 10⟩, ⟨.PingMessage, some [], 20⟩]

/-- The request of the scenario: origin `http://evil.com` against host `example.com`. -/
def evilRequest : Request :=
  { Method := "GET", Header := [("Origin", ["http://evil.com"])], Host := "example.com" }

/-- A request with a method other than GET and a matching origin. -/
def postRequest : Request :=
  { Method := "POST", Header := [("Origin", ["http://example.com"])], Host := "example.com" }

/-- A well-formed request. -/
def goodRequest : Request :=
  { Method := "GET", Header := [("Origin", ["http://example.com"])], Host := "example.com" }

/-! ## Lemmas on the loops -/

theorem readLoop_ok_append (c : Connection) (frames : List Frame) (rest : List ReadResult) :
    readLoop c (frames.map .ok ++ rest) =
      ⟨frames.flatMap (frameEffects c) ++ (readLoop c rest).trace,
       (readLoop c rest).exited, (readLoop c rest).pending⟩ := by
  induction frames with
  | nil => simp
  | cons f fs ih =>
    obtain ⟨mt, body, now⟩ := f
    cases mt <;> cases body <;>
      simp [readLoop, frameEffects, ih]

theorem frameEffects_not_exit (c : Connection) (frames : List Frame) :
    ∀ x ∈ frames.flatMap (frameEffects c),
      (∀ c1, x ≠ Effect.OnClose c1) ∧ (∀ ws, x ≠ Effect.Close ws) := by
  intro x hx
  rw [List.mem_flatMap] at hx
  obtain ⟨f, _, hf⟩ := hx
  obtain ⟨mt, body, now⟩ := f
  cases mt <;> cases body <;> simp [frameEffects] at hf <;> subst hf <;> simp

theorem onMessages_append (xs ys : List Effect) :
    onMessages (xs ++ ys) = onMessages xs ++ onMessages ys := by
  induction xs with
  | nil => simp [onMessages]
  | cons x xs ih => cases x <;> simp [onMessages, ih]

theorem onMessages_frameEffects (c : Connection) (frames : List Frame) :
    onMessages (frames.flatMap (frameEffects c)) = frames.filterMap (forwarded c) := by
  induction frames with
  | nil => simp [onMessages]
  | cons f fs ih =>
    rw [List.flatMap_cons, onMessages_append, ih]
    obtain ⟨mt, body, now⟩ := f
    cases mt <;> cases body <;> simp [frameEffects, forwarded, onMessages]

theorem writeLoop_ok_append (c : Connection) (pre rest : List Event)
    (h : ∀ e ∈ pre, e.succeeds) :
    writeLoop c (pre ++ rest) =
      ⟨pre.flatMap (specWrites c) ++ (writeLoop c rest).trace,
       (writeLoop c rest).exited, (writeLoop c rest).pending⟩ := by
  induction pre with
  | nil => simp
  | cons e es ih =>
    have he : e.succeeds := h e (by simp)
    have ih1 := ih (fun x hx => h x (by simp [hx]))
    obtain ⟨sel, now, werr⟩ := e
    obtain ⟨h1, h2⟩ := he
    simp only at h1 h2
    subst h2
    rcases sel with (_ | m) | _
    · exact absurd rfl h1
    · simp [writeLoop, write, specWrites, ih1]
    · simp [writeLoop, write, specWrites, ih1]

theorem writeLoop_isWriteOp (c : Connection) (events : List Event) :
    ∀ x ∈ (writeLoop c events).trace, x.isWriteOp = true := by
  induction events with
  | nil => simp [writeLoop]
  | cons e es ih =>
    obtain ⟨sel, now, werr⟩ := e
    rcases sel with (_ | m) | _ <;> cases werr <;>
      simp [writeLoop, write, Effect.isWriteOp] <;> exact ih

theorem writesGuarded_writeLoop (c : Connection) (events : List Event) (tail : List Effect) :
    writesGuarded ((writeLoop c events).trace ++ tail) = writesGuarded tail := by
  induction events with
  | nil => simp [writeLoop]
  | cons e es ih =>
    obtain ⟨sel, now, werr⟩ := e
    rcases sel with (_ | m) | _ <;> cases werr <;>
      simp [writeLoop, write, writesGuarded, ih]

theorem textPayloads_append (xs ys : List Effect) :
    textPayloads (xs ++ ys) = textPayloads xs ++ textPayloads ys := by
  induction xs with
  | nil => simp [textPayloads]
  | cons x xs ih =>
    cases x with
    | WriteMessage ws mt p => cases mt <;> simp [textPayloads, ih]
    | _ => simp [textPayloads, ih]

theorem textPayloads_specWrites (c : Connection) (events : List Event)
    (h : ∀ e ∈ events, e.succeeds) :
    textPayloads (events.flatMap (specWrites c)) = sentMessages events := by
  induction events with
  | nil => simp [textPayloads, sentMessages]
  | cons e es ih =>
    have ih1 := ih (fun x hx => h x (by simp [hx]))
    have he : e.succeeds := h e (by simp)
    rw [List.flatMap_cons, textPayloads_append, ih1]
    obtain ⟨sel, now, werr⟩ := e
    rcases sel with (_ | m) | _
    · exact absurd rfl he.1
    · simp [specWrites, textPayloads, sentMessages]
    · simp [specWrites, textPayloads, sentMessages]

theorem writesGuarded_writePump (c : Connection) (events : List Event) :
    writesGuarded (writePump c events).trace = true := by
  have h0 := writesGuarded_writeLoop c events []
  have h1 := writesGuarded_writeLoop c events [.TickerStop, .Close c.WS]
  simp only [List.append_nil] at h0
  by_cases hx : (writeLoop c events).exited = true
  · simp only [writePump, hx, if_true]
    exact h1.trans rfl
  · simp only [writePump, hx]
    exact h0.trans rfl

/-! ## The outbound pump -/

/-- C1: over any finite sequence of events that are messages taken from `Send` or
ticks and whose writes all succeed, `writePump` performs, after creating the
ticker, for each event in arrival order exactly `SetWriteDeadline(now + writeWait)`
followed by one frame write (a text frame carrying the message, a ping frame with
empty payload for a tick), and is then waiting for the next event; the text frames
written carry exactly the messages sent, in order; and on every event sequence
whatsoever each frame write comes directly after a `SetWriteDeadline`. -/
theorem writePump_events_to_writes (c : Connection) (events : List Event)
    (h : ∀ e ∈ events, e.succeeds) :
    writePump c events =
        ⟨.NewTicker pingPeriod :: events.flatMap (specWrites c), false, []⟩
      ∧ textPayloads (writePump c events).trace = sentMessages events
      ∧ (textPayloads (writePump c events).trace).length = (sentMessages events).length
      ∧ ∀ evs : List Event, writesGuarded (writePump c evs).trace = true := by
  have hloop := writeLoop_ok_append c events [] h
  simp only [List.append_nil] at hloop
  have hpump : writePump c events =
      ⟨.NewTicker pingPeriod :: events.flatMap (specWrites c), false, []⟩ := by
    simp [writePump, hloop, writeLoop]
  have htext : textPayloads (writePump c events).trace = sentMessages events := by
    rw [hpump]
    simp only [textPayloads]
    exact textPayloads_specWrites c events h
  refine ⟨hpump, htext, by rw [htext], ?_⟩
  intro evs
  exact writesGuarded_writePump c evs

/-- C1 at a message, a tick and a second message. -/
theorem writePump_events_to_writes_witness :
    (∀ e ∈ sampleEvents, e.succeeds) ∧
    writePump conn0 sampleEvents =
      ⟨[.NewTicker 54000000000,
        .SetWriteDeadline 7 10000001000, .WriteMessage 7 .TextMessage [104, 105],
        .SetWriteDeadline 7 10000002000, .WriteMessage 7 .PingMessage [],
        .SetWriteDeadline 7 10000003000, .WriteMessage 7 .TextMessage [33]],
       false, []⟩ :=
  ⟨by simp [sampleEvents, Event.succeeds],
   (writePump_events_to_writes conn0 sampleEvents
      (by simp [sampleEvents, Event.succeeds])).1.trans (by decide)⟩

/-- C2: when, after events whose writes all succeeded, `writePump` receives the
closed-queue signal from `Send`, it sets the write deadline, writes one close frame
with empty payload, and whether or not that write fails it returns, running only
its deferred `ticker.Stop()` and `Close()`; everything after the signal (ticks
included) stays unconsumed, so no further frame is written. -/
theorem writePump_closed_queue (c : Connection) (pre rest : List Event) (now : Time)
    (werr : Bool) (h : ∀ e ∈ pre, e.succeeds) :
    writePump c (pre ++ ⟨.send none, now, werr⟩ :: rest) =
      ⟨.NewTicker pingPeriod :: pre.flatMap (specWrites c) ++
         [.SetWriteDeadline c.WS (now + writeWait), .WriteMessage c.WS .CloseMessage [],
          .TickerStop, .Close c.WS],
       true, rest⟩ := by
  have hloop := writeLoop_ok_append c pre (⟨.send none, now, werr⟩ :: rest) h
  simp [writePump, hloop, writeLoop, write]

/-- C2 at a queue closed after three events, with the close-frame write failing
and two ticks still pending. -/
theorem writePump_closed_queue_witness :
    (∀ e ∈ sampleEvents, e.succeeds) ∧
    writePump conn0
        (sampleEvents ++ ⟨.send none, 4000, true⟩ :: [⟨.tick, 5000, false⟩, ⟨.tick, 6000, false⟩]) =
      ⟨.NewTicker pingPeriod :: sampleEvents.flatMap (specWrites conn0) ++
         [.SetWriteDeadline conn0.WS (4000 + writeWait),
          .WriteMessage conn0.WS .CloseMessage [], .TickerStop, .Close conn0.WS],
       true, [⟨.tick, 5000, false⟩, ⟨.tick, 6000, false⟩]⟩ :=
  ⟨by simp [sampleEvents, Event.succeeds],
   writePump_closed_queue conn0 sampleEvents _ 4000 true
     (by simp [sampleEvents, Event.succeeds])⟩

/-- C6: when, after events whose writes all succeeded, the write of a text frame or
of a ping frame fails, `writePump` performs no further write (no retry, no close
frame) and returns, leaving the later events unconsumed; and whenever `writePump`
has returned, on any event sequence, its trace ends with `ticker.Stop()` then
`Close()`, neither of which occurs earlier. -/
theorem writePump_write_error_fatal (c : Connection) (pre rest : List Event)
    (sel : Select) (now : Time) (h : ∀ e ∈ pre, e.succeeds) (hsel : sel ≠ .send none) :
    writePump c (pre ++ ⟨sel, now, true⟩ :: rest) =
        ⟨.NewTicker pingPeriod :: pre.flatMap (specWrites c) ++
           specWrites c ⟨sel, now, true⟩ ++ [.TickerStop, .Close c.WS],
         true, rest⟩
      ∧ ∀ evs : List Event, (writePump c evs).exited = true →
          ∃ t, (writePump c evs).trace = t ++ [.TickerStop, .Close c.WS]
            ∧ Effect.TickerStop ∉ t ∧ ∀ ws, Effect.Close ws ∉ t := by
  constructor
  · have hloop := writeLoop_ok_append c pre (⟨sel, now, true⟩ :: rest) h
    rcases sel with (_ | m) | _
    · exact absurd rfl hsel
    · simp [writePump, hloop, writeLoop, write, specWrites]
    · simp [writePump, hloop, writeLoop, write, specWrites]
  · intro evs hex
    have hx : (writeLoop c evs).exited = true := by
      by_contra hne
      simp [writePump, hne] at hex
    refine ⟨.NewTicker pingPeriod :: (writeLoop c evs).trace, ?_, ?_, ?_⟩
    · simp [writePump, hx]
    · intro hmem
      rcases List.mem_cons.1 hmem with h1 | h1
      · cases h1
      · have := writeLoop_isWriteOp c evs _ h1
        simp [Effect.isWriteOp] at this
    · intro ws hmem
      rcases List.mem_cons.1 hmem with h1 | h1
      · cases h1
      · have := writeLoop_isWriteOp c evs _ h1
        simp [Effect.isWriteOp] at this

/-- C6 at a ping whose write fails after three successful events, with a message
still queued. -/
theorem writePump_write_error_fatal_witness :
    (∀ e ∈ sampleEvents, e.succeeds) ∧ Select.tick ≠ Select.send none ∧
    writePump conn0 (sampleEvents ++ ⟨.tick, 4000, true⟩ :: [⟨.send (some [1]), 5000, false⟩]) =
      ⟨.NewTicker pingPeriod :: sampleEvents.flatMap (specWrites conn0) ++
         specWrites conn0 ⟨.tick, 4000, true⟩ ++ [.TickerStop, .Close conn0.WS],
       true, [⟨.send (some [1]), 5000, false⟩]⟩ :=
  ⟨by simp [sampleEvents, Event.succeeds], by decide,
   (writePump_write_error_fatal conn0 sampleEvents _ .tick 4000
     (by simp [sampleEvents, Event.succeeds]) (by decide)).1⟩

/-! ## The inbound pump -/

/-- C3: after any frames read successfully, at the first `NextReader` error (of any
kind, deadline exceeded included) `readPump` returns: it has handled the frames
before the error, pushes its own connection onto `onClose` once and then closes
its transport, and consumes nothing after the error; handling frames never pushes
to `onClose` nor closes the transport, and as long as no error has been read the
pump has not returned and has done neither. -/
theorem readPump_exit_on_first_error (c : Connection) (maxMessageSize : Int) (now0 : Time)
    (frames : List Frame) (e : ReadError) (rest : List ReadResult) :
    readPump c maxMessageSize now0 (frames.map .ok ++ .err e :: rest) =
        ⟨[.SetReadLimit c.WS maxMessageSize, .SetReadDeadline c.WS (now0 + pongWait)] ++
           frames.flatMap (frameEffects c) ++ [.OnClose c, .Close c.WS],
         true, rest⟩
      ∧ readPump c maxMessageSize now0 (frames.map .ok) =
        ⟨[.SetReadLimit c.WS maxMessageSize, .SetReadDeadline c.WS (now0 + pongWait)] ++
           frames.flatMap (frameEffects c),
         false, []⟩
      ∧ ∀ x ∈ frames.flatMap (frameEffects c),
          (∀ c1, x ≠ Effect.OnClose c1) ∧ (∀ ws, x ≠ Effect.Close ws) := by
  refine ⟨?_, ?_, frameEffects_not_exit c frames⟩
  · have hloop := readLoop_ok_append c frames (.err e :: rest)
    simp [readPump, hloop, readLoop]
  · have hloop := readLoop_ok_append c frames []
    simp only [List.append_nil] at hloop
    simp [readPump, hloop, readLoop]

/-- C4 (as the code behaves): a pong frame read by `readPump` leaves no operation in
the trace, so the read deadline is not reset; it is a ping frame that resets the
read deadline to now + pongWait. Neither pushes onto `onMessage`. -/
theorem readPump_pong_does_not_reset_deadline (c : Connection) (maxMessageSize : Int)
    (now0 now : Time) (body : Option Bytes) :
    readPump c maxMessageSize now0 [.ok ⟨.PongMessage, body, now⟩] =
        ⟨[.SetReadLimit c.WS maxMessageSize, .SetReadDeadline c.WS (now0 + pongWait)],
         false, []⟩
      ∧ readPump c maxMessageSize now0 [.ok ⟨.PingMessage, body, now⟩] =
        ⟨[.SetReadLimit c.WS maxMessageSize, .SetReadDeadline c.WS (now0 + pongWait),
          .SetReadDeadline c.WS (now + pongWait)],
         false, []⟩ := by
  constructor <;> simp [readPump, readLoop]

/-- C5: for frames read successfully and then a read error, the values `readPump`
pushes onto `onMessage` are exactly, in arrival order, `ConnMessage{c, payload}` for
each text frame whose payload was fully read, where `c` is the pump's connection;
the same holds before any error is read. Three text frames followed by a
deadline-exceeded error give those three payloads in order, all before the push
onto `onClose`. -/
theorem readPump_forwards_in_order (c : Connection) (maxMessageSize : Int) (now0 : Time)
    (frames : List Frame) (e : ReadError) (rest : List ReadResult) :
    onMessages (readPump c maxMessageSize now0 (frames.map .ok ++ .err e :: rest)).trace =
        frames.filterMap (forwarded c)
      ∧ onMessages (readPump c maxMessageSize now0 (frames.map .ok)).trace =
        frames.filterMap (forwarded c)
      ∧ ∀ (p1 p2 p3 : Bytes) (t1 t2 t3 : Time),
          readPump c maxMessageSize now0
              [.ok ⟨.TextMessage, some p1, t1⟩, .ok ⟨.TextMessage, some p2, t2⟩,
               .ok ⟨.TextMessage, some p3, t3⟩, .err .deadlineExceeded] =
            ⟨[.SetReadLimit c.WS maxMessageSize, .SetReadDeadline c.WS (now0 + pongWait),
              .OnMessage ⟨c, p1⟩, .OnMessage ⟨c, p2⟩, .OnMessage ⟨c, p3⟩,
              .OnClose c, .Close c.WS],
             true, []⟩ := by
  refine ⟨?_, ?_, ?_⟩
  · have hloop := readLoop_ok_append c frames (.err e :: rest)
    simp [readPump, hloop, readLoop, onMessages_append, onMessages,
      onMessages_frameEffects]
  · have hloop := readLoop_ok_append c frames []
    simp only [List.append_nil] at hloop
    simp [readPump, hloop, readLoop, onMessages_append, onMessages,
      onMessages_frameEffects]
  · intro p1 p2 p3 t1 t2 t3
    simp [readPump, readLoop]

/-- C7: a text frame whose payload read (`ReadAll`) fails, arriving after frames
read successfully, leaves the pump exactly as if it had not arrived: nothing is
pushed onto `onMessage` for it, the pump has not returned, nothing was pushed onto
`onClose` and the transport was not closed; the pump goes on to the next
`NextReader`, and a well-formed text frame coming next is forwarded. -/
theorem readPump_failed_payload_read_continues (c : Connection) (maxMessageSize : Int)
    (now0 now : Time) (frames : List Frame) (rest : List ReadResult) :
    readPump c maxMessageSize now0 (frames.map .ok ++ .ok ⟨.TextMessage, none, now⟩ :: rest) =
        readPump c maxMessageSize now0 (frames.map .ok ++ rest)
      ∧ readPump c maxMessageSize now0 (frames.map .ok ++ [.ok ⟨.TextMessage, none, now⟩]) =
        ⟨[.SetReadLimit c.WS maxMessageSize, .SetReadDeadline c.WS (now0 + pongWait)] ++
           frames.flatMap (frameEffects c),
         false, []⟩
      ∧ (∀ x ∈ frames.flatMap (frameEffects c),
          (∀ c1, x ≠ Effect.OnClose c1) ∧ (∀ ws, x ≠ Effect.Close ws))
      ∧ ∀ (p : Bytes) (t : Time),
          readPump c maxMessageSize now0
              (frames.map .ok ++ [.ok ⟨.TextMessage, none, now⟩, .ok ⟨.TextMessage, some p, t⟩]) =
            ⟨[.SetReadLimit c.WS maxMessageSize, .SetReadDeadline c.WS (now0 + pongWait)] ++
               frames.flatMap (frameEffects c) ++ [.OnMessage ⟨c, p⟩],
             false, []⟩ := by
  refine ⟨?_, ?_, frameEffects_not_exit c frames, ?_⟩
  · have h1 := readLoop_ok_append c frames (.ok ⟨.TextMessage, none, now⟩ :: rest)
    have h2 := readLoop_ok_append c frames rest
    simp [readPump, h1, h2, readLoop]
  · have h1 := readLoop_ok_append c frames [.ok ⟨.TextMessage, none, now⟩]
    simp [readPump, h1, readLoop]
  · intro p t
    have h1 := readLoop_ok_append c frames
      [.ok ⟨.TextMessage, none, now⟩, .ok ⟨.TextMessage, some p, t⟩]
    simp [readPump, h1, readLoop]

/-! ## Upgrade -/

theorem http_ne_empty (host : String) : "" ≠ "http://" ++ host := by
  intro e
  have := congrArg String.data e
  simp at this

theorem https_ne_http (host : String) : "https://" ++ host ≠ "http://" ++ host := by
  intro e
  have := congrArg String.data e
  simp at this

/-- C8: a GET request whose `Origin` header value differs from `"http://"` followed
by the request host is answered with status 403 and nil, with no handshake attempt,
no connection and no pump; this covers a request without `Origin` header and an
`https://` origin of the same host. A GET request whose `Origin` is
`"http://" + Host` gets no 403. -/
theorem Upgrade_origin_mismatch_403 (r : Request) (hs : HandshakeResult) (sendId : Nat)
    (maxMessageSize : Int) (hm : r.Method = "GET") :
    (r.Header.Get "Origin" ≠ "http://" ++ r.Host →
        Upgrade r hs sendId maxMessageSize = ⟨none, [.HttpError "Origin not allowed" 403]⟩)
      ∧ (r.Header.lookup "Origin" = none →
        Upgrade r hs sendId maxMessageSize = ⟨none, [.HttpError "Origin not allowed" 403]⟩)
      ∧ (r.Header.Get "Origin" = "https://" ++ r.Host →
        Upgrade r hs sendId maxMessageSize = ⟨none, [.HttpError "Origin not allowed" 403]⟩)
      ∧ (r.Header.Get "Origin" = "http://" ++ r.Host →
        ∀ msg, UpEffect.HttpError msg 403 ∉ (Upgrade r hs sendId maxMessageSize).trace) := by
  have key : r.Header.Get "Origin" ≠ "http://" ++ r.Host →
      Upgrade r hs sendId maxMessageSize = ⟨none, [.HttpError "Origin not allowed" 403]⟩ := by
    intro ho
    simp [Upgrade, hm, ho]
  refine ⟨key, ?_, ?_, ?_⟩
  · intro hnone
    apply key
    have : r.Header.Get "Origin" = "" := by simp [Header.Get, hnone]
    rw [this]
    exact http_ne_empty r.Host
  · intro hhttps
    apply key
    rw [hhttps]
    exact https_ne_http r.Host
  · intro ho msg
    cases hs <;> simp [Upgrade, hm, ho]

/-- C8 at the scenario: origin `http://evil.com` against host `example.com`. -/
theorem Upgrade_origin_mismatch_403_witness :
    evilRequest.Method = "GET" ∧
    evilRequest.Header.Get "Origin" ≠ "http://" ++ evilRequest.Host ∧
    Upgrade evilRequest (.ok 7) 1 512 = ⟨none, [.HttpError "Origin not allowed" 403]⟩ :=
  ⟨by decide, by decide,
   (Upgrade_origin_mismatch_403 evilRequest (.ok 7) 1 512 (by decide)).1 (by decide)⟩

/-- C9: a request whose method is not `GET` is answered with status 405 and nil
whatever its origin and host, with no other response, no handshake attempt and no
pump; and `Upgrade` returns a connection only when the method is `GET`, the origin
check passes and the handshake returned no error, in which case both pumps were
launched on the returned connection. -/
theorem Upgrade_method_first_405 (r : Request) (hs : HandshakeResult) (sendId : Nat)
    (maxMessageSize : Int) :
    (r.Method ≠ "GET" →
        Upgrade r hs sendId maxMessageSize = ⟨none, [.HttpError "Method not allowed" 405]⟩)
      ∧ ∀ c, (Upgrade r hs sendId maxMessageSize).ret = some c →
          r.Method = "GET" ∧ r.Header.Get "Origin" = "http://" ++ r.Host
            ∧ (∃ ws, hs = .ok ws ∧ c = { WS := ws, Send := ⟨sendId, 256⟩ })
            ∧ (Upgrade r hs sendId maxMessageSize).trace =
                [.WsUpgrade 1024 1024, .GoWritePump c, .GoReadPump c maxMessageSize] := by
  constructor
  · intro hm
    simp [Upgrade, hm]
  · intro c hc
    by_cases hm : r.Method = "GET"
    · by_cases ho : r.Header.Get "Origin" = "http://" ++ r.Host
      · cases hs with
        | ok ws =>
          simp [Upgrade, hm, ho] at hc
          subst hc
          simp [Upgrade, hm, ho]
        | handshakeError => simp [Upgrade, hm, ho] at hc
        | otherError => simp [Upgrade, hm, ho] at hc
      · simp [Upgrade, hm, ho] at hc
    · simp [Upgrade, hm] at hc

/-- C9 at a POST request with matching origin, and at a well-formed GET request. -/
theorem Upgrade_method_first_405_witness :
    postRequest.Method ≠ "GET" ∧
    Upgrade postRequest (.ok 7) 1 512 = ⟨none, [.HttpError "Method not allowed" 405]⟩ ∧
    (Upgrade goodRequest (.ok 7) 1 512).ret = some conn0 :=
  ⟨by decide, (Upgrade_method_first_405 postRequest (.ok 7) 1 512).1 (by decide), by decide⟩

/-! ## Constants -/

/-- C10: `pingPeriod`, computed as `(pongWait * 9) / 10` on nanosecond counts with
`pongWait` 60 s, is exactly 54 s, strictly positive and strictly below `pongWait`;
the intermediate product `pongWait * 9` lies in the signed 64-bit range, so 64-bit
arithmetic gives the same values; `writeWait` is 10 s. -/
theorem pingPeriod_is_54s :
    pongWait = 60 * 1000000000
      ∧ pingPeriod = 54 * 1000000000
      ∧ 0 < pingPeriod ∧ pingPeriod < pongWait
      ∧ -(2 ^ 63) ≤ pongWait * 9 ∧ pongWait * 9 < 2 ^ 63
      ∧ wrapInt64 (pongWait * 9) = pongWait * 9
      ∧ Int.tdiv (wrapInt64 (pongWait * 9)) 10 = pingPeriod
      ∧ writeWait = 10 * 1000000000 := by
  decide

end Easyconn
